import Mathlib

/-!
Verification of the execution-orchestration and match-convergence subsystem of
the CODO-AI competitive coding platform.

The client-side logic (match timer, timeout auto-submit, result polling,
leaderboard ordering, sample-test output comparison) is embedded from
`src/pages/CompetitiveMatch.jsx`.  The scoring rule is embedded from the
time-bonus snippet documented in `SCORING_FIX.md`.  Backend components that
are only documented (match state machine, validator loop, circuit breaker)
are modelled from the specification and marked as such in their doc comments.
-/

namespace Codo

/-! ### Output comparison (JS String.trim model)

`handleRun` compares the sample-test output with
`data.output.trim() === expectedOutput.trim()`.  JavaScript `trim` removes
whitespace from BOTH ends of the string.  Strings are modelled as `List Char`.
-/

/-- Whitespace characters recognised by the JS `trim` model. -/
def isWsChar (c : Char) : Bool :=
  c = ' ' || c = '\t' || c = '\n' || c = '\r'

/-- Remove leading whitespace. -/
def ltrimWS (s : List Char) : List Char := s.dropWhile isWsChar

/-- Remove trailing whitespace. -/
def rtrimWS (s : List Char) : List Char := (s.reverse.dropWhile isWsChar).reverse

/-- Model of JavaScript `String.prototype.trim`: removes whitespace from both
ends, as used at `actualOutput = data.output.trim()` in `handleRun`. -/
def jsTrim (s : List Char) : List Char := rtrimWS (ltrimWS s)

/-- The output comparison performed by `handleRun`
(`actualOutput === expected` after both sides were `trim()`ed). -/
def casePasses (actual expected : List Char) : Bool :=
  jsTrim actual = jsTrim expected

/-- A test case as stored on a question (`{input, expected}`). -/
structure TestCase where
  input : List Char
  expected : List Char
deriving DecidableEq

/-- Modelled from the spec: the backend validator loop
(`validate(ExecutionResult, List<TestCase>)`, §4.4) is not under `src/`; per
the spec it runs each test case in order and stops at the first failing case,
reported as `firstFailure`.  The per-case output comparison is the one from
the source (`casePasses`).  `run` gives the executed program's output on each
test-case input. -/
def firstFailure (run : TestCase → List Char) : List TestCase → Option TestCase
  | [] => none
  | tc :: rest =>
    if casePasses (run tc) tc.expected then firstFailure run rest else some tc

/-- Modelled from the spec: number of passing test cases counted by the
backend validator (not under `src/`), using the source comparison. -/
def passedCount (run : TestCase → List Char) (tcs : List TestCase) : ℕ :=
  tcs.countP (fun tc => casePasses (run tc) tc.expected)

/-! ### Match timer (`updateTimer` in CompetitiveMatch)

```js
const elapsed = Math.floor((now - startTime) / 1000);
setTimeElapsed(Math.max(0, elapsed));
```
Times are in milliseconds; `Math.floor` of a real quotient is floor division.
-/

/-- Elapsed seconds displayed by the client: embedded from `updateTimer`. -/
def updateTimer (now startTime : ℤ) : ℤ :=
  max 0 ((now - startTime).fdiv 1000)

/-! ### Execution-result polling (`pollExecutionResult`)

```js
let attempts = 0;
const maxAttempts = 60; // 30 seconds (500ms * 60)
...
pollingRef.current = setInterval(poll, 500);
```
Each poll fetches the execution result; a non-OK response stops with an error,
`completed`/`failed` stop with the payload, otherwise `attempts` is
incremented and polling gives up with a timeout message once it reaches
`maxAttempts`.  The server's successive responses are modelled as a function
from the poll index.
-/

/-- One response observed by a poll iteration. -/
inductive PollResponse where
  | notOk
  | completed
  | failed
  | processing
deriving DecidableEq

/-- How the polling loop ends. -/
inductive PollOutcome where
  | result
  | failureReported
  | fetchError
  | timedOut
deriving DecidableEq

/-- `maxAttempts` constant from `pollExecutionResult`. -/
def maxAttempts : ℕ := 60

/-- Polling interval in milliseconds (`setInterval(poll, 500)`). -/
def pollIntervalMs : ℕ := 500

/-- How one poll iteration handles a response: a terminal response (or a
non-OK fetch) ends the loop with the matching outcome, `processing` keeps
polling (`none`). -/
def pollStep (r : PollResponse) : Option PollOutcome :=
  match r with
  | .notOk => some .fetchError
  | .completed => some .result
  | .failed => some .failureReported
  | .processing => none

/-- Embedding of the polling loop body.  `i` is the index of the next fetch,
`fuel` the number of further non-terminal responses tolerated before the
timeout branch fires (the JS code times out on the 60th consecutive
`processing` response).  Returns the outcome and the number of fetches
performed. -/
def pollAux (responses : ℕ → PollResponse) : ℕ → ℕ → PollOutcome × ℕ
  | i, 0 => ((pollStep (responses i)).getD PollOutcome.timedOut, i + 1)
  | i, fuel + 1 =>
    match pollStep (responses i) with
    | some o => (o, i + 1)
    | none => pollAux responses (i + 1) fuel

/-- Embedding of `pollExecutionResult`: polls from index 0 with the JS
attempt budget. -/
def pollExecutionResult (responses : ℕ → PollResponse) : PollOutcome × ℕ :=
  pollAux responses 0 (maxAttempts - 1)

/-! ### Timeout-check effect and auto-submit (CompetitiveMatch)

```js
const timeLimit = match.time_limit_seconds || 900;
if (timeLimit <= 0) return;
if (match.status !== "active") return;
if (timeElapsed < 10) return;
const timeRemaining = Math.max(0, timeLimit - timeElapsed);
if (timeRemaining === 0 && timeElapsed >= timeLimit) handleTimeExpired();
```
`handleTimeExpired` calls `handleSubmit(true)`, which posts the current editor
code with `force_submit: forceSubmit`.
-/

/-- Match status as seen by the client. -/
inductive MatchStatus where
  | waiting
  | active
  | completed
deriving DecidableEq

/-- The slice of the match object read by the timeout-check effect.
`time_limit_seconds` is `none` when the field is absent or null. -/
structure ClientMatch where
  status : MatchStatus
  time_limit_seconds : Option ℤ
deriving DecidableEq

/-- `match.time_limit_seconds || 900`: JS `||` replaces the falsy values
`null`/`undefined`/`0` by the default `900`. -/
def effTimeLimit (m : ClientMatch) : ℤ :=
  match m.time_limit_seconds with
  | none => 900
  | some v => if v = 0 then 900 else v

/-- Embedding of the timeout-check `useEffect` guards: `true` exactly when the
effect reaches `handleTimeExpired()`. -/
def timeoutCheckFires (m : ClientMatch) (hasStartTime matchCompleted : Bool)
    (timeElapsed : ℤ) : Bool :=
  if hasStartTime = false || matchCompleted then false
  else
    let timeLimit := effTimeLimit m
    if timeLimit ≤ 0 then false
    else if m.status ≠ MatchStatus.active then false
    else if timeElapsed < 10 then false
    else
      let timeRemaining := max 0 (timeLimit - timeElapsed)
      decide (timeRemaining = 0) && decide (timeLimit ≤ timeElapsed)

/-- The submission body built by `handleSubmit` (the fields relevant to
finalization). -/
structure SubmissionBody where
  code : List Char
  force_submit : Bool
deriving DecidableEq

/-- `handleSubmit(forceSubmit)` posts the current editor code with
`force_submit: forceSubmit`. -/
def handleSubmitBody (code : List Char) (forceSubmit : Bool) : SubmissionBody :=
  { code := code, force_submit := forceSubmit }

/-- `handleTimeExpired` auto-submits via `handleSubmit(true)`. -/
def handleTimeExpiredBody (code : List Char) : SubmissionBody :=
  handleSubmitBody code true

/-! ### Scoring (time-bonus snippet, `SCORING_FIX.md`)

```python
score = int((passed_tests / total_tests) * 100)
if score > 0:
    time_bonus = int((1 - time_ratio) * 50)
    final_score = score + time_bonus
else:
    time_bonus = 0
    final_score = 0
```
with `time_ratio = time_elapsed / time_limit`.  Python `int()` truncates
toward zero.
-/

/-- Python `int()` on a rational: truncation toward zero. -/
def pyTrunc (q : ℚ) : ℤ :=
  if 0 ≤ q then ⌊q⌋ else -⌊-q⌋

/-- Base test score: `int((passed_tests / total_tests) * 100)`. -/
def scorePercent (passed total : ℕ) : ℕ :=
  passed * 100 / total

/-- The speed bonus `int((1 - time_ratio) * 50)`. -/
def timeBonus (elapsed limit : ℚ) : ℤ :=
  pyTrunc ((1 - elapsed / limit) * 50)

/-- Final recorded score, with the time bonus gated on a positive base score
(the fix recorded in `SCORING_FIX.md`). -/
def finalScore (passed total : ℕ) (elapsed limit : ℚ) : ℤ :=
  let score : ℤ := (scorePercent passed total : ℤ)
  if 0 < score then score + timeBonus elapsed limit else 0

/-! ### Leaderboard ordering (CompetitiveMatch poll effect)

```js
const sortedPlayers = [...data.players].sort((a, b) => {
  return (b.score || 0) - (a.score || 0)
      || (a.time_elapsed || Infinity) - (b.time_elapsed || Infinity);
});
```
`Array.prototype.sort` is stable.  JS `||` sends the falsy values
`null`/`undefined`/`0` to the right operand, so a missing score reads as 0 and
a missing — or zero — `time_elapsed` reads as `Infinity`.
-/

/-- The player fields read by the leaderboard comparator.  `score` and
`time_elapsed` are `none` when absent from the payload. -/
structure RankedPlayer where
  user_id : ℕ
  score : Option ℤ
  time_elapsed : Option ℚ
deriving DecidableEq

/-- `p.score || 0`. -/
def scoreKey (p : RankedPlayer) : ℤ := p.score.getD 0

/-- `p.time_elapsed || Infinity`: `none` represents `Infinity`; a present
value of `0` is falsy in JS and also reads as `Infinity`. -/
def timeKey (p : RankedPlayer) : Option ℚ :=
  match p.time_elapsed with
  | none => none
  | some x => if x = 0 then none else some x

/-- Order on `Infinity`-completed time keys (`none` is `Infinity`). -/
def timeLEKey (a b : Option ℚ) : Bool :=
  match a, b with
  | _, none => true
  | none, some _ => false
  | some x, some y => decide (x ≤ y)

/-- `rankLE a b` holds when the comparator lets `a` stay left of `b`:
strictly greater score, or equal score and not-later time key. -/
def rankLE (a b : RankedPlayer) : Bool :=
  decide (scoreKey b < scoreKey a) ||
    (decide (scoreKey a = scoreKey b) && timeLEKey (timeKey a) (timeKey b))

/-- The leaderboard ordering of `data.players` (stable sort by the embedded
comparator). -/
def sortedPlayers (ps : List RankedPlayer) : List RankedPlayer :=
  ps.mergeSort rankLE

/-! ### Match state machine (modelled from the spec)

The backend (`app/routers/competitive.py` and `app/services/*` per the repo
documentation) is not under `src/`; the match aggregate, submission handling
and the exactly-once completion transition are modelled from §3–§5 of the
spec and the behavior notes in the repo documentation.
-/

/-- Modelled from the spec: per-player progress inside a match (§3). -/
structure PlayerProgress where
  playerId : ℕ
  score : ℤ
  completed : Bool
  completionTimeSeconds : Option ℚ
deriving DecidableEq

/-- Modelled from the spec: spec §4.5 ranking key over `PlayerProgress`
(descending score, ties by ascending completion time, absent time last). -/
def progressLE (a b : PlayerProgress) : Bool :=
  decide (b.score < a.score) ||
    (decide (a.score = b.score) &&
      timeLEKey a.completionTimeSeconds b.completionTimeSeconds)

/-- Modelled from the spec: the ranking snapshot computed once on completion
(§4.5 step 5, stable sort). -/
def computeRanking (ps : List PlayerProgress) : List PlayerProgress :=
  ps.mergeSort progressLE

/-- Modelled from the spec: the match aggregate (§3). -/
structure Match where
  status : MatchStatus
  players : List PlayerProgress
  timeLimitSeconds : ℤ
  rankingSnapshot : Option (List PlayerProgress)
deriving DecidableEq

/-- Modelled from the spec: the guarded finalize-and-rank step (§5 mutual
exclusion): a compare-and-swap on `status` so the transition body runs only
when the match is not yet completed. -/
def finalizeMatch (m : Match) : Match :=
  if m.status = MatchStatus.completed then m
  else
    { m with
      status := MatchStatus.completed
      rankingSnapshot := some (computeRanking m.players) }

/-- Modelled from the spec: `n` finalization triggers arriving one after the
other against the shared match state (the serialized interleaving of §5). -/
def runTriggers (m : Match) : ℕ → Match
  | 0 => m
  | n + 1 => finalizeMatch (runTriggers m n)

/-- Modelled from the spec: the completion predicate's all-players arm. -/
def allCompleted (m : Match) : Bool :=
  m.players.all (·.completed)

/-- Modelled from the spec: evaluate the completion predicate after a
submission (§4.5 step 4). -/
def checkCompletion (m : Match) : Match :=
  if allCompleted m then finalizeMatch m else m

/-- Validation outcome of one submission (§3). -/
structure ValidationOutcome where
  passedTests : ℕ
  totalTests : ℕ
  scorePct : ℕ
  failedCase : Option TestCase
deriving DecidableEq

/-- Reply of the submit endpoint. -/
inductive SubmitReply where
  | validationFailed (o : ValidationOutcome)
  | accepted (m : Match)
  | rejected
deriving DecidableEq

/-- Modelled from the spec: update one player's progress on an accepted
submission (§4.5 step 3). -/
def updatePlayer (ps : List PlayerProgress) (pid : ℕ) (score : ℤ) (t : ℚ) :
    List PlayerProgress :=
  ps.map fun p =>
    if p.playerId = pid then
      { p with score := score, completed := true, completionTimeSeconds := some t }
    else p

/-- Modelled from the spec: the submit transition of the match state machine
(§4.5 steps 2–5; the `submit_solution` endpoint described in the repo
documentation).  A non-forced submission scoring below 100 returns the
outcome without mutating anything; otherwise the player is finalized and the
completion predicate is evaluated. -/
def applySubmission (m : Match) (pid : ℕ) (o : ValidationOutcome)
    (force : Bool) (elapsed : ℚ) : Match × SubmitReply :=
  if m.status = MatchStatus.active then
    if o.scorePct < 100 ∧ force = false then
      (m, SubmitReply.validationFailed o)
    else
      let m1 : Match :=
        { m with players := updatePlayer m.players pid (o.scorePct : ℤ) elapsed }
      let m2 := checkCompletion m1
      (m2, SubmitReply.accepted m2)
  else (m, SubmitReply.rejected)

/-! ### Circuit breaker (modelled from the spec)

`app/services/circuit_breaker.py` is not under `src/`; modelled from spec
§4.2 and the configuration snippet recorded in `BUG_HUNT_CURRENT_ISSUES.md`
(`failure_threshold = 5`, `recovery_timeout = 60`).
-/

/-- Circuit-breaker state tag (§3 `CircuitState`).  `opened` is the tripped
("open") state. -/
inductive CBState where
  | closed
  | opened
  | halfOpen
deriving DecidableEq

/-- Modelled from the spec: the breaker's mutable state (§3). -/
structure Breaker where
  state : CBState
  consecutiveFailures : ℕ
  openedAt : Option ℕ
deriving DecidableEq

/-- Failure threshold from the configuration snippet. -/
def failureThreshold : ℕ := 5

/-- Recovery timeout (seconds) from the configuration snippet. -/
def recoveryTimeout : ℕ := 60

/-- How one gateway call turned out.  `programFault` covers compile errors,
runtime errors and in-program timeouts (§4.1). -/
inductive CallOutcome where
  | transportFailure
  | programFault
  | success
deriving DecidableEq

/-- Modelled from the spec: whether a call may go through, and the state
after the admission decision (an open breaker moves to half-open once the
recovery timeout has elapsed, §4.2). -/
def allowRequest (b : Breaker) (now : ℕ) : Bool × Breaker :=
  match b.state with
  | CBState.closed => (true, b)
  | CBState.halfOpen => (true, b)
  | CBState.opened =>
    match b.openedAt with
    | some t =>
      if t + recoveryTimeout ≤ now then (true, { b with state := CBState.halfOpen })
      else (false, b)
    | none => (false, b)

/-- Modelled from the spec: state update after an attempted call (§4.2):
only transport failures count toward the threshold; program-level outcomes
reset the counter; success closes the breaker; a half-open probe failure
re-opens it. -/
def recordOutcome (b : Breaker) (now : ℕ) (o : CallOutcome) : Breaker :=
  match o with
  | CallOutcome.success =>
    { state := CBState.closed, consecutiveFailures := 0, openedAt := none }
  | CallOutcome.programFault =>
    { state := if b.state = CBState.halfOpen then CBState.closed else b.state
      consecutiveFailures := 0
      openedAt := if b.state = CBState.halfOpen then none else b.openedAt }
  | CallOutcome.transportFailure =>
    let f := b.consecutiveFailures + 1
    if failureThreshold ≤ f ∨ b.state = CBState.halfOpen then
      { state := CBState.opened, consecutiveFailures := f, openedAt := some now }
    else { b with consecutiveFailures := f }

/-- Modelled from the spec: a breaker-wrapped gateway call.  Returns the next
breaker state and whether the gateway call was actually attempted. -/
def cbCall (b : Breaker) (now : ℕ) (o : CallOutcome) : Breaker × Bool :=
  let admitted := allowRequest b now
  if admitted.1 then (recordOutcome admitted.2 now o, true) else (admitted.2, false)

/-- The breaker's initial state: closed, no recorded failures. -/
def initialBreaker : Breaker :=
  { state := CBState.closed, consecutiveFailures := 0, openedAt := none }

/-! ## Helper lemmas -/

theorem pollAux_count_le (responses : ℕ → PollResponse) :
    ∀ (fuel i : ℕ), (pollAux responses i fuel).2 ≤ i + fuel + 1 := by
  intro fuel
  induction fuel with
  | zero =>
    intro i
    simp [pollAux]
  | succ f ih =>
    intro i
    rw [pollAux]
    cases pollStep (responses i) with
    | none =>
      simp only []
      have := ih (i + 1)
      omega
    | some o => simp

theorem pollAux_all_processing (responses : ℕ → PollResponse)
    (h : ∀ j, responses j = PollResponse.processing) :
    ∀ (fuel i : ℕ), pollAux responses i fuel = (PollOutcome.timedOut, i + fuel + 1) := by
  intro fuel
  induction fuel with
  | zero =>
    intro i
    rw [pollAux, h i]
    rfl
  | succ f ih =>
    intro i
    rw [pollAux, h i]
    show pollAux responses (i + 1) f = _
    rw [ih (i + 1)]
    simp
    omega

theorem timeoutCheckFires_iff (m : ClientMatch) (hs mc : Bool) (te : ℤ) :
    timeoutCheckFires m hs mc te = true ↔
      hs = true ∧ mc = false ∧ 0 < effTimeLimit m
        ∧ m.status = MatchStatus.active ∧ 10 ≤ te ∧ effTimeLimit m ≤ te := by
  simp only [timeoutCheckFires]
  split_ifs with h1 h2 h3 h4
  · simp only [Bool.false_eq_true, false_iff]
    rintro ⟨rfl, rfl, -⟩
    simp at h1
  · simp only [Bool.false_eq_true, false_iff]
    rintro ⟨-, -, hL, -⟩
    omega
  · simp only [Bool.false_eq_true, false_iff]
    rintro ⟨-, -, -, hst, -⟩
    exact h3 hst
  · simp only [Bool.false_eq_true, false_iff]
    rintro ⟨-, -, -, -, hte, -⟩
    omega
  · simp only [Bool.and_eq_true, decide_eq_true_eq]
    constructor
    · intro h
      have hhs : hs = true := by
        cases hs
        · simp at h1
        · rfl
      have hmc : mc = false := by
        cases mc
        · rfl
        · simp at h1
      exact ⟨hhs, hmc, by omega, not_not.mp h3, by omega, h.2⟩
    · intro h
      exact ⟨by omega, h.2.2.2.2.2⟩

theorem ltrimWS_ws_append {pre s : List Char} (h : ∀ c ∈ pre, isWsChar c = true) :
    ltrimWS (pre ++ s) = ltrimWS s :=
  List.dropWhile_append_of_pos h

theorem ltrimWS_eq_nil {s : List Char} (h : ∀ c ∈ s, isWsChar c = true) :
    ltrimWS s = [] := by
  have := ltrimWS_ws_append (s := ([] : List Char)) h
  simpa using this

theorem rtrimWS_append_ws {s post : List Char} (h : ∀ c ∈ post, isWsChar c = true) :
    rtrimWS (s ++ post) = rtrimWS s := by
  unfold rtrimWS
  rw [List.reverse_append]
  rw [List.dropWhile_append_of_pos (by simpa using h)]

theorem jsTrim_padding {s pre post : List Char}
    (hpre : ∀ c ∈ pre, isWsChar c = true) (hpost : ∀ c ∈ post, isWsChar c = true) :
    jsTrim (pre ++ s ++ post) = jsTrim s := by
  unfold jsTrim
  rw [List.append_assoc, ltrimWS_ws_append hpre]
  show rtrimWS (ltrimWS (s ++ post)) = rtrimWS (ltrimWS s)
  unfold ltrimWS
  rw [List.dropWhile_append]
  split
  · rename_i hnil
    rw [List.isEmpty_iff] at hnil
    show rtrimWS (ltrimWS post) = rtrimWS (ltrimWS s)
    rw [show ltrimWS s = [] from hnil, ltrimWS_eq_nil hpost]
  · exact rtrimWS_append_ws hpost

theorem firstFailure_spec (run : TestCase → List Char) :
    ∀ (tcs : List TestCase) (tc : TestCase), firstFailure run tcs = some tc →
      ∃ pre post, tcs = pre ++ tc :: post
        ∧ (∀ t ∈ pre, casePasses (run t) t.expected = true)
        ∧ casePasses (run tc) tc.expected = false := by
  intro tcs
  induction tcs with
  | nil => intro tc h; simp [firstFailure] at h
  | cons tc0 rest ih =>
    intro tc h
    rw [firstFailure] at h
    by_cases hp : casePasses (run tc0) tc0.expected = true
    · rw [if_pos hp] at h
      obtain ⟨pre, post, heq, hpre, hfail⟩ := ih tc h
      exact ⟨tc0 :: pre, post, by simp [heq], by
        intro t ht
        rcases List.mem_cons.mp ht with rfl | ht
        · exact hp
        · exact hpre t ht, hfail⟩
    · rw [if_neg hp] at h
      obtain rfl : tc0 = tc := Option.some.inj h
      exact ⟨[], rest, rfl, by simp, Bool.not_eq_true _ ▸ (by simpa using hp)⟩

theorem firstFailure_none_iff (run : TestCase → List Char) :
    ∀ tcs : List TestCase,
      firstFailure run tcs = none ↔ ∀ t ∈ tcs, casePasses (run t) t.expected = true := by
  intro tcs
  induction tcs with
  | nil => simp [firstFailure]
  | cons tc0 rest ih =>
    rw [firstFailure]
    by_cases hp : casePasses (run tc0) tc0.expected = true
    · rw [if_pos hp]
      simp [ih, hp]
    · rw [if_neg hp]
      simp only [Option.some_ne_none, false_iff]
      intro hall
      exact hp (hall tc0 (List.mem_cons_self tc0 rest))

theorem timeLEKey_refl (a : Option ℚ) : timeLEKey a a = true := by
  cases a with
  | none => rfl
  | some x => simp [timeLEKey]

theorem timeLEKey_total (a b : Option ℚ) : (timeLEKey a b || timeLEKey b a) = true := by
  cases a <;> cases b <;> simp [timeLEKey]
  exact le_total _ _

theorem timeLEKey_trans {a b c : Option ℚ} (h1 : timeLEKey a b = true)
    (h2 : timeLEKey b c = true) : timeLEKey a c = true := by
  cases a <;> cases b <;> cases c <;> simp_all [timeLEKey]
  exact le_trans h1 h2

theorem rankLE_iff (a b : RankedPlayer) :
    rankLE a b = true ↔
      scoreKey b < scoreKey a
        ∨ (scoreKey a = scoreKey b ∧ timeLEKey (timeKey a) (timeKey b) = true) := by
  simp [rankLE]

theorem rankLE_total (a b : RankedPlayer) : (rankLE a b || rankLE b a) = true := by
  rcases lt_trichotomy (scoreKey a) (scoreKey b) with h | h | h
  · have hr : rankLE b a = true := (rankLE_iff b a).mpr (Or.inl h)
    simp [hr]
  · rcases Bool.or_eq_true _ _ |>.mp (timeLEKey_total (timeKey a) (timeKey b)) with ht | ht
    · have hr : rankLE a b = true := (rankLE_iff a b).mpr (Or.inr ⟨h, ht⟩)
      simp [hr]
    · have hr : rankLE b a = true := (rankLE_iff b a).mpr (Or.inr ⟨h.symm, ht⟩)
      simp [hr]
  · have hr : rankLE a b = true := (rankLE_iff a b).mpr (Or.inl h)
    simp [hr]

theorem rankLE_trans (a b c : RankedPlayer) (h1 : rankLE a b = true)
    (h2 : rankLE b c = true) : rankLE a c = true := by
  rw [rankLE_iff] at h1 h2 ⊢
  rcases h1 with h1 | ⟨h1, h1t⟩
  · rcases h2 with h2 | ⟨h2, _⟩
    · exact Or.inl (lt_trans h2 h1)
    · exact Or.inl (h2 ▸ h1)
  · rcases h2 with h2 | ⟨h2, h2t⟩
    · exact Or.inl (h1 ▸ h2)
    · exact Or.inr ⟨h1.trans h2, timeLEKey_trans h1t h2t⟩

theorem finalizeMatch_status (m : Match) :
    (finalizeMatch m).status = MatchStatus.completed := by
  unfold finalizeMatch
  split
  · assumption
  · rfl

theorem finalizeMatch_of_completed {m : Match} (h : m.status = MatchStatus.completed) :
    finalizeMatch m = m := by
  simp [finalizeMatch, h]

theorem finalizeMatch_idem (m : Match) :
    finalizeMatch (finalizeMatch m) = finalizeMatch m :=
  finalizeMatch_of_completed (finalizeMatch_status m)

theorem finalizeMatch_players (m : Match) : (finalizeMatch m).players = m.players := by
  unfold finalizeMatch
  split <;> rfl

theorem finalizeMatch_snapshot {m : Match} (h : m.status ≠ MatchStatus.completed) :
    (finalizeMatch m).rankingSnapshot = some (computeRanking m.players) := by
  simp [finalizeMatch, h]

theorem checkCompletion_players (m : Match) : (checkCompletion m).players = m.players := by
  unfold checkCompletion
  split
  · exact finalizeMatch_players m
  · rfl

theorem runTriggers_pos (m : Match) : ∀ k, runTriggers m (k + 1) = finalizeMatch m := by
  intro k
  induction k with
  | zero => rfl
  | succ k ih =>
    show finalizeMatch (runTriggers m (k + 1)) = finalizeMatch m
    rw [ih]
    exact finalizeMatch_idem m

/-! ## Claim theorems -/

/-- Claim C7: for every client and instant, the displayed elapsed time of an
active match equals max(0, floor((now − startedAt) / 1 second)) computed from
the server-recorded start timestamp: it is never negative under client clock
skew (clamped to 0 when `now` precedes the start), and when `now` is at or
after the start it is the exact floor of the elapsed milliseconds divided by
1000, so all clients and reloads that read the same timestamps agree. -/
theorem elapsed_time_clamped_floor (now startTime : ℤ) :
    0 ≤ updateTimer now startTime
    ∧ (now < startTime → updateTimer now startTime = 0)
    ∧ (startTime ≤ now →
        1000 * updateTimer now startTime ≤ now - startTime
        ∧ now - startTime < 1000 * (updateTimer now startTime + 1)) := by
  have h1 := Int.fmod_add_fdiv (now - startTime) 1000
  have h2 := Int.fmod_nonneg' (now - startTime) (by norm_num : (0:ℤ) < 1000)
  have h3 := Int.fmod_lt_of_pos (now - startTime) (by norm_num : (0:ℤ) < 1000)
  refine ⟨le_max_left 0 _, fun h => ?_, fun h => ?_⟩
  · have hd : (now - startTime).fdiv 1000 ≤ 0 := by omega
    unfold updateTimer
    exact max_eq_left hd
  · have hd : 0 ≤ (now - startTime).fdiv 1000 := by omega
    unfold updateTimer
    rw [max_eq_right hd]
    omega

/-- Witness for C7 at a concrete instant. -/
theorem elapsed_time_clamped_floor_witness :
    0 ≤ updateTimer 5300 2000 ∧ updateTimer 5300 2000 = 3 :=
  ⟨(elapsed_time_clamped_floor 5300 2000).1, by decide⟩

/-- Claim C8: client-side result polling runs at a fixed 500 ms interval and
performs at most 60 fetches (≈30 s); against an everlastingly non-terminal
result it stops after exactly 60 fetches reporting a timeout, and every run
ends with a terminal result, a reported failure, a fetch error, or the
reported timeout (the `PollOutcome` type). -/
theorem poll_bounded_terminates (responses : ℕ → PollResponse) :
    (pollExecutionResult responses).2 ≤ maxAttempts
    ∧ ((∀ j, responses j = PollResponse.processing) →
        pollExecutionResult responses = (PollOutcome.timedOut, maxAttempts))
    ∧ pollIntervalMs = 500 ∧ maxAttempts = 60
    ∧ pollIntervalMs * maxAttempts = 30000 := by
  refine ⟨?_, ?_, rfl, rfl, rfl⟩
  · have hb := pollAux_count_le responses (maxAttempts - 1) 0
    unfold pollExecutionResult
    unfold maxAttempts at hb ⊢
    omega
  · intro h
    unfold pollExecutionResult
    rw [pollAux_all_processing responses h (maxAttempts - 1) 0]
    unfold maxAttempts
    norm_num

/-- Witness for C8: a permanently processing result times out after exactly
60 fetches. -/
theorem poll_bounded_terminates_witness :
    pollExecutionResult (fun _ => PollResponse.processing)
      = (PollOutcome.timedOut, 60) :=
  (poll_bounded_terminates (fun _ => PollResponse.processing)).2.1 (fun _ => rfl)

/-- Claim C10: the client timeout finalization fires only when the match is
`active`, the (default-applied) time limit is positive, and at least 10
seconds of match time have elapsed — in particular it also requires the
elapsed time to have reached the limit, so for a limit below 10 seconds it
cannot occur before 10 seconds have elapsed. -/
theorem timeout_guard_conditions (m : ClientMatch) (hs mc : Bool) (te : ℤ)
    (h : timeoutCheckFires m hs mc te = true) :
    m.status = MatchStatus.active ∧ 0 < effTimeLimit m ∧ 10 ≤ te
    ∧ effTimeLimit m ≤ te ∧ (effTimeLimit m < 10 → 10 ≤ te) := by
  obtain ⟨-, -, hL, hst, hte, hLe⟩ := (timeoutCheckFires_iff m hs mc te).mp h
  exact ⟨hst, hL, hte, hLe, fun _ => hte⟩

/-- Concrete active match with the default 900-second limit. -/
def stdMatch : ClientMatch :=
  { status := MatchStatus.active, time_limit_seconds := some 900 }

/-- Witness for C10 at a firing instant of `stdMatch`. -/
theorem timeout_guard_conditions_witness :
    stdMatch.status = MatchStatus.active ∧ 0 < effTimeLimit stdMatch
      ∧ 10 ≤ (900:ℤ) ∧ effTimeLimit stdMatch ≤ 900 :=
  have h := timeout_guard_conditions stdMatch true false 900 (by decide)
  ⟨h.1, h.2.1, h.2.2.1, h.2.2.2.1⟩

/-- Active client match whose configured time limit is 5 seconds. -/
def shortLimitMatch : ClientMatch :=
  { status := MatchStatus.active, time_limit_seconds := some 5 }

/-- Counterexample to C3 as stated: for an active match with
`time_limit_seconds = 5` and no player-completion, at elapsed time 5 — the
first instant at which the elapsed time reaches `timeLimitSeconds` — the
timeout finalization does not fire, because the timeout check waits for at
least 10 seconds of match time. -/
theorem short_limit_timeout_not_at_limit :
    shortLimitMatch.status = MatchStatus.active
    ∧ effTimeLimit shortLimitMatch ≤ 5
    ∧ timeoutCheckFires shortLimitMatch true false 5 = false := by
  decide

/-- Claim C3 (amended): for every active match with a positive
(default-applied) time limit, the client timeout finalization fires exactly
at the instants with elapsed ≥ max(timeLimitSeconds, 10) — so its first
instant is max(timeLimitSeconds, 10) rather than `timeLimitSeconds`; it
submits the player's most recently entered code with `force_submit = true`;
a forced submission finalizes that player (`completed = true`); and the
match becomes `completed` the instant every player's `completed` flag is
true, and not before. -/
theorem timeout_finalization_first_instant :
    (∀ (m : ClientMatch) (te : ℤ), m.status = MatchStatus.active →
      0 < effTimeLimit m →
      (timeoutCheckFires m true false te = true ↔ max (effTimeLimit m) 10 ≤ te))
    ∧ (∀ code : List Char,
        handleTimeExpiredBody code = { code := code, force_submit := true })
    ∧ (∀ (M : Match) (pid : ℕ) (o : ValidationOutcome) (elapsed : ℚ),
        M.status = MatchStatus.active →
        ∀ p ∈ (applySubmission M pid o true elapsed).1.players,
          p.playerId = pid → p.completed = true)
    ∧ (∀ M : Match, allCompleted M = true →
        (checkCompletion M).status = MatchStatus.completed)
    ∧ (∀ M : Match, allCompleted M = false → checkCompletion M = M) := by
  refine ⟨?_, fun _ => rfl, ?_, ?_, ?_⟩
  · intro m te hst hL
    rw [timeoutCheckFires_iff]
    constructor
    · rintro ⟨-, -, -, -, h10, hLe⟩
      exact max_le hLe h10
    · intro h
      rw [max_le_iff] at h
      exact ⟨rfl, rfl, hL, hst, h.2, h.1⟩
  · intro M pid o elapsed hact p hp hpid
    rw [applySubmission, if_pos hact,
      if_neg (by simp : ¬(o.scorePct < 100 ∧ true = false))] at hp
    simp only [checkCompletion_players] at hp
    simp only [updatePlayer, List.mem_map] at hp
    obtain ⟨q, -, rfl⟩ := hp
    by_cases hq : q.playerId = pid
    · rw [if_pos hq]
    · rw [if_neg hq] at hpid ⊢
      exact absurd hpid hq
  · intro M h
    unfold checkCompletion
    rw [if_pos h]
    exact finalizeMatch_status M
  · intro M h
    unfold checkCompletion
    rw [if_neg (by simp [h])]

/-- Witness for amended C3: the default-limit match fires at elapsed 900, and
the auto-submit body carries `force_submit = true`. -/
theorem timeout_finalization_first_instant_witness :
    timeoutCheckFires stdMatch true false 900 = true
    ∧ (handleTimeExpiredBody ['x']).force_submit = true :=
  ⟨(timeout_finalization_first_instant.1 stdMatch 900 rfl (by decide)).mpr
      (by decide),
   by rw [timeout_finalization_first_instant.2.1 ['x']]⟩

/-- Claim C6: a non-forced submission on an active match whose validation
scores below 100 returns the validation outcome to the caller and leaves the
match — in particular every player's progress — unchanged, so the player may
retry. -/
theorem failed_unforced_submit_no_mutation (m : Match) (pid : ℕ)
    (o : ValidationOutcome) (elapsed : ℚ)
    (hact : m.status = MatchStatus.active) (hlt : o.scorePct < 100) :
    applySubmission m pid o false elapsed = (m, SubmitReply.validationFailed o) := by
  rw [applySubmission, if_pos hact, if_pos ⟨hlt, rfl⟩]

/-- A concrete two-player active match. -/
def demoMatch : Match :=
  { status := MatchStatus.active
    players :=
      [ { playerId := 1, score := 0, completed := false, completionTimeSeconds := none }
      , { playerId := 2, score := 0, completed := false, completionTimeSeconds := none } ]
    timeLimitSeconds := 600
    rankingSnapshot := none }

/-- A concrete 50%-passing validation outcome. -/
def demoOutcome : ValidationOutcome :=
  { passedTests := 1, totalTests := 2, scorePct := 50, failedCase := none }

/-- Witness for C6 on `demoMatch`. -/
theorem failed_unforced_submit_no_mutation_witness :
    applySubmission demoMatch 1 demoOutcome false 30
      = (demoMatch, SubmitReply.validationFailed demoOutcome) :=
  failed_unforced_submit_no_mutation demoMatch 1 demoOutcome 30 rfl (by decide)

/-- Counterexample to C5 as stated: the outputs `" 15"` and `"15"` differ in
their leading characters, not only in trailing whitespace (their
trailing-trimmed forms differ), yet the comparison used by the code reports
them equal, because JS `trim()` removes leading whitespace as well. -/
theorem leading_ws_outputs_compare_equal :
    casePasses [' ', '1', '5'] ['1', '5'] = true
    ∧ rtrimWS [' ', '1', '5'] ≠ rtrimWS ['1', '5'] := by
  decide

/-- Claim C5 (amended): the comparison strips leading AND trailing
whitespace from both outputs before the exact comparison: two outputs equal
up to leading/trailing whitespace padding compare equal, two outputs whose
fully trimmed forms differ compare unequal, and the validator reports as
`firstFailure` exactly the first failing test case (every earlier case
passes), or none when all cases pass. -/
theorem trimmed_compare_first_failure :
    (∀ a b : List Char, casePasses a b = true ↔ jsTrim a = jsTrim b)
    ∧ (∀ s pre post : List Char,
        (∀ c ∈ pre, isWsChar c = true) → (∀ c ∈ post, isWsChar c = true) →
        jsTrim (pre ++ s ++ post) = jsTrim s)
    ∧ (∀ (run : TestCase → List Char) (tcs : List TestCase) (tc : TestCase),
        firstFailure run tcs = some tc →
        ∃ pre post, tcs = pre ++ tc :: post
          ∧ (∀ t ∈ pre, casePasses (run t) t.expected = true)
          ∧ casePasses (run tc) tc.expected = false)
    ∧ (∀ (run : TestCase → List Char) (tcs : List TestCase),
        firstFailure run tcs = none ↔
          ∀ t ∈ tcs, casePasses (run t) t.expected = true) := by
  refine ⟨?_, ?_, firstFailure_spec, firstFailure_none_iff⟩
  · intro a b
    simp [casePasses]
  · intro s pre post hpre hpost
    exact jsTrim_padding hpre hpost

/-- Witness for amended C5: whitespace padding is invisible to the
comparison, and the modelled validator pinpoints the first failing case. -/
theorem trimmed_compare_first_failure_witness :
    jsTrim ([' '] ++ ['4', '2'] ++ ['\n']) = jsTrim ['4', '2']
    ∧ casePasses ['4', '2', ' '] ['4', '2'] = true :=
  ⟨trimmed_compare_first_failure.2.1 ['4', '2'] [' '] ['\n']
      (by decide) (by decide),
   (trimmed_compare_first_failure.1 ['4', '2', ' '] ['4', '2']).mpr (by decide)⟩

/-- Claim C2: a submission passing zero test cases records a final score of
exactly 0 regardless of elapsed time; whenever the final score differs from
the base `scorePercent` (i.e. a time bonus was added), at least one test
passed; and the bonus never exceeds 50 points for a submission within the
time limit. -/
theorem zero_pass_zero_final_score (p t : ℕ) (e l : ℚ) :
    (p = 0 → finalScore p t e l = 0)
    ∧ (finalScore p t e l ≠ (scorePercent p t : ℤ) → 0 < p)
    ∧ (0 ≤ e → e ≤ l → 0 < l → timeBonus e l ≤ 50) := by
  refine ⟨?_, ?_, ?_⟩
  · intro hp
    subst hp
    simp [finalScore, scorePercent]
  · intro hne
    rcases Nat.eq_zero_or_pos p with hp | hp
    · subst hp
      exact absurd (by simp [finalScore, scorePercent]) hne
    · exact hp
  · intro he hel hl
    have h0 : 0 ≤ e / l := div_nonneg he hl.le
    have hq : (1 - e / l) * 50 ≤ 50 := by nlinarith
    unfold timeBonus pyTrunc
    split
    · calc ⌊(1 - e / l) * 50⌋ ≤ ⌊(50:ℚ)⌋ := Int.floor_le_floor hq
        _ = 50 := by norm_num
    · rename_i hneg
      push_neg at hneg
      have : (0:ℤ) ≤ ⌊-((1 - e / l) * 50)⌋ :=
        Int.floor_nonneg.mpr (by linarith)
      omega

/-- Witness for C2: a 0-of-3 submission at 5 of 600 seconds scores 0; a
5-of-5 submission at time 0 gets a bonus (final 150 ≠ base 100) with a
positive pass count; the bonus at 120 of 600 seconds is at most 50. -/
theorem zero_pass_zero_final_score_witness :
    finalScore 0 3 5 600 = 0 ∧ (0:ℕ) < 5 ∧ timeBonus 120 600 ≤ 50 :=
  ⟨(zero_pass_zero_final_score 0 3 5 600).1 rfl,
   (zero_pass_zero_final_score 5 5 0 600).2.1
      (by norm_num [finalScore, scorePercent, timeBonus, pyTrunc]),
   (zero_pass_zero_final_score 5 5 120 600).2.2
      (by norm_num) (by norm_num) (by norm_num)⟩

/-- Claim C1: starting from a not-yet-completed match, any positive number of
finalization triggers (qualifying submissions or timeouts, serialized by the
single-writer guard) leaves the match `completed`, the status transition to
`completed` happens on exactly one trigger, and every read issued after any
trigger returns the identical ranking snapshot, computed once from the
pre-completion player list. -/
theorem match_finalization_exactly_once (m : Match) (n : ℕ)
    (hs : m.status ≠ MatchStatus.completed) (hn : 1 ≤ n) :
    (runTriggers m n).status = MatchStatus.completed
    ∧ (∀ k, 1 ≤ k →
        (runTriggers m k).rankingSnapshot = some (computeRanking m.players))
    ∧ (List.range n).countP
        (fun k => decide ((runTriggers m k).status ≠ MatchStatus.completed
          ∧ (runTriggers m (k + 1)).status = MatchStatus.completed)) = 1 := by
  obtain ⟨n', rfl⟩ : ∃ n', n = n' + 1 := ⟨n - 1, by omega⟩
  have h1 : ∀ k : ℕ, (runTriggers m (k + 1)).status = MatchStatus.completed := by
    intro k
    rw [runTriggers_pos m k]
    exact finalizeMatch_status m
  refine ⟨h1 n', ?_, ?_⟩
  · intro k hk
    obtain ⟨k', rfl⟩ : ∃ k', k = k' + 1 := ⟨k - 1, by omega⟩
    rw [runTriggers_pos m k']
    exact finalizeMatch_snapshot hs
  · rw [List.range_succ_eq_map, List.countP_cons, List.countP_map]
    rw [List.countP_eq_zero.mpr ?_]
    · have hp0 : (runTriggers m 0).status ≠ MatchStatus.completed
          ∧ (runTriggers m (0 + 1)).status = MatchStatus.completed := ⟨hs, h1 0⟩
      simp [hp0]
    · intro a _
      simp only [Function.comp_apply, decide_eq_true_eq, not_and]
      intro hcontra
      exact absurd (h1 a) hcontra

/-- Witness for C1: three triggers on the demo match complete it once and the
second and third reads agree on the snapshot. -/
theorem match_finalization_exactly_once_witness :
    (runTriggers demoMatch 3).status = MatchStatus.completed
    ∧ (runTriggers demoMatch 2).rankingSnapshot
        = some (computeRanking demoMatch.players) :=
  have h := match_finalization_exactly_once demoMatch 3 (by decide) (by decide)
  ⟨h.1, h.2.1 2 (by decide)⟩

/-- Tied players: equal scores, completion times 0 and 5 seconds. -/
def playerZeroTime : RankedPlayer :=
  { user_id := 1, score := some 10, time_elapsed := some 0 }

/-- See `playerZeroTime`. -/
def playerFiveTime : RankedPlayer :=
  { user_id := 2, score := some 10, time_elapsed := some 5 }

unseal List.merge List.mergeSort in
/-- Counterexample to C4 as stated: two players with equal scores and
completion times 0 and 5 seconds should, by ascending completion time, keep
the 0-second player first; the code's comparator evaluates
`a.time_elapsed || Infinity`, for which a completion time of exactly 0 is
falsy and reads as `Infinity`, so the sort puts the 0-second player last. -/
theorem zero_time_tie_ranked_last :
    scoreKey playerZeroTime = scoreKey playerFiveTime
    ∧ playerZeroTime.time_elapsed = some 0
    ∧ playerFiveTime.time_elapsed = some 5
    ∧ sortedPlayers [playerZeroTime, playerFiveTime]
        = [playerFiveTime, playerZeroTime] := by
  decide

/-- Claim C4 (amended): the leaderboard ordering is a permutation of the
players sorted by descending score (missing score read as 0), with score
ties broken by ascending completion time where a missing OR ZERO completion
time is treated as infinitely late, and remaining ties keep the original
join order (the sort is stable). -/
theorem leaderboard_sorted_stable (ps : List RankedPlayer) :
    (sortedPlayers ps).Perm ps
    ∧ (sortedPlayers ps).Pairwise (fun a b =>
        scoreKey b < scoreKey a
          ∨ (scoreKey a = scoreKey b ∧ timeLEKey (timeKey a) (timeKey b) = true))
    ∧ (∀ a b : RankedPlayer, scoreKey a = scoreKey b → timeKey a = timeKey b →
        List.Sublist [a, b] ps → List.Sublist [a, b] (sortedPlayers ps)) := by
  refine ⟨List.mergeSort_perm ps rankLE, ?_, ?_⟩
  · have hsorted := List.sorted_mergeSort rankLE_trans rankLE_total ps
    exact hsorted.imp fun h => (rankLE_iff _ _).mp h
  · intro a b hsc ht hsub
    have hab : rankLE a b = true :=
      (rankLE_iff a b).mpr (Or.inr ⟨hsc, ht ▸ timeLEKey_refl (timeKey a)⟩)
    exact List.pair_sublist_mergeSort rankLE_trans rankLE_total hab hsub

/-- Fully tied players distinguished only by join order. -/
def twinFirst : RankedPlayer :=
  { user_id := 1, score := some 5, time_elapsed := some 10 }

/-- See `twinFirst`. -/
def twinSecond : RankedPlayer :=
  { user_id := 2, score := some 5, time_elapsed := some 10 }

/-- Witness for amended C4: fully tied players keep their join order. -/
theorem leaderboard_sorted_stable_witness :
    List.Sublist [twinFirst, twinSecond] (sortedPlayers [twinFirst, twinSecond]) :=
  (leaderboard_sorted_stable [twinFirst, twinSecond]).2.2 twinFirst twinSecond
    (by decide) (by decide) (List.Sublist.refl _)

/-- Claim C9: from a closed breaker, 5 consecutive transport failures (at
any call times) trip it open; while open and within the 60-second recovery
timeout every call short-circuits with no gateway attempt and no state
change; once the timeout has elapsed a single successful half-open probe
returns the breaker to closed with a zeroed counter; and from a closed state
only a transport failure increments the consecutive-failure counter, while
program-level outcomes and successes reset it to zero. -/
theorem circuit_breaker_behavior :
    (∀ t1 t2 t3 t4 t5 : ℕ,
      (cbCall (cbCall (cbCall (cbCall (cbCall initialBreaker t1
        CallOutcome.transportFailure).1 t2 CallOutcome.transportFailure).1 t3
        CallOutcome.transportFailure).1 t4 CallOutcome.transportFailure).1 t5
        CallOutcome.transportFailure).1
        = { state := CBState.opened, consecutiveFailures := 5, openedAt := some t5 })
    ∧ (∀ (b : Breaker) (t now : ℕ) (o : CallOutcome), b.state = CBState.opened →
        b.openedAt = some t → now < t + recoveryTimeout →
        cbCall b now o = (b, false))
    ∧ (∀ (b : Breaker) (t now : ℕ), b.state = CBState.opened →
        b.openedAt = some t → t + recoveryTimeout ≤ now →
        (cbCall b now CallOutcome.success).1 = initialBreaker
          ∧ (cbCall b now CallOutcome.success).2 = true)
    ∧ (∀ (b : Breaker) (now : ℕ), b.state = CBState.closed →
        (cbCall b now CallOutcome.transportFailure).1.consecutiveFailures
            = b.consecutiveFailures + 1
        ∧ (cbCall b now CallOutcome.programFault).1.consecutiveFailures = 0
        ∧ (cbCall b now CallOutcome.success).1.consecutiveFailures = 0) := by
  refine ⟨?_, ?_, ?_, ?_⟩
  · intro t1 t2 t3 t4 t5
    rfl
  · intro b t now o hst hoa hlt
    simp only [cbCall, allowRequest, hst, hoa]
    rw [if_neg (by omega : ¬(t + recoveryTimeout ≤ now))]
    simp
  · intro b t now hst hoa hge
    simp only [cbCall, allowRequest, hst, hoa]
    rw [if_pos hge]
    simp [recordOutcome, initialBreaker]
  · intro b now hst
    have hcb : ∀ o : CallOutcome, cbCall b now o = (recordOutcome b now o, true) := by
      intro o
      have hadm : allowRequest b now = (true, b) := by
        unfold allowRequest
        rw [hst]
      simp only [cbCall]
      rw [hadm]
      rfl
    refine ⟨?_, ?_, ?_⟩
    · rw [hcb CallOutcome.transportFailure]
      show (recordOutcome b now CallOutcome.transportFailure).consecutiveFailures
        = b.consecutiveFailures + 1
      simp only [recordOutcome]
      split <;> rfl
    · rw [hcb CallOutcome.programFault]
      rfl
    · rw [hcb CallOutcome.success]
      rfl

/-- Witness for C9 at concrete call times: five transport failures trip the
breaker; a call at 30 s short-circuits; a probe at 70 s closes it. -/
theorem circuit_breaker_behavior_witness :
    (cbCall (cbCall (cbCall (cbCall (cbCall initialBreaker 1
      CallOutcome.transportFailure).1 2 CallOutcome.transportFailure).1 3
      CallOutcome.transportFailure).1 4 CallOutcome.transportFailure).1 5
      CallOutcome.transportFailure).1
      = { state := CBState.opened, consecutiveFailures := 5, openedAt := some 5 }
    ∧ cbCall { state := CBState.opened, consecutiveFailures := 5, openedAt := some 5 }
        30 CallOutcome.success
        = ({ state := CBState.opened, consecutiveFailures := 5, openedAt := some 5 }, false)
    ∧ (cbCall { state := CBState.opened, consecutiveFailures := 5, openedAt := some 5 }
        70 CallOutcome.success).1 = initialBreaker :=
  ⟨circuit_breaker_behavior.1 1 2 3 4 5,
   circuit_breaker_behavior.2.1 _ 5 30 _ rfl rfl (by decide),
   (circuit_breaker_behavior.2.2.1 _ 5 70 rfl rfl (by decide)).1⟩

end Codo
